import Mathlib

/-
Verification development for the zk-precompiles repository.

The repository consists of a Python test harness (src/tests) and thin
deployment scripts (src/script) for two external Vyper contracts: a
rational adder and an elliptic-curve matrix-multiplication verifier.
The pure helper functions of the test harness (inv_mod_p, mat_vec,
to_affine, g_mul and the padding helpers) are embedded directly from
the source. The two contract entry points, rationalAdd and matmul, are
not part of the provided sources (only their tests and deployment glue
are), so they are modelled from the specification; each such definition
carries a doc comment beginning with "Modelled from the spec". Aborting
calls (precondition violations that raise rather than return a boolean)
are modelled by the value `none` of an `Option Bool` result.

The file also proves, via Pratt certificates, that the BN-254
scalar-field prime used by both contracts is in fact prime; this backs
the Fermat-little-theorem modular-inverse property of the spec.
-/

set_option maxRecDepth 40000

/-- Fuel-driven fast modular exponentiation: `powModAux m fuel b e = b ^ e % m`
whenever `e < 2 ^ fuel`. Structural recursion on the fuel keeps the function
reducible by the kernel on concrete inputs. -/
def powModAux (m : Nat) : Nat → Nat → Nat → Nat
  | 0, _, _ => 1 % m
  | fuel + 1, b, e =>
    if e = 0 then 1 % m
    else
      let h := powModAux m fuel (b * b % m) (e / 2)
      if e % 2 = 1 then h * b % m else h

namespace RationalAdder

/-- BN-254 scalar-field prime, bound to `P` in src/tests/test_rational_adder.py. -/
def P : Nat := 21888242871839275222246405745257275088548364400416034343698204186575808495617

/-- Modular inverse in the scalar field via the little theorem of Fermat,
embedded from `inv_mod_p` in src/tests/test_rational_adder.py:
`pow(u, P - 2, P)`. -/
def inv_mod_p (u : Nat) : Nat := u ^ (P - 2) % P

/-- Modelled from the spec: the contract entry point `rationalAdd` of the
rational-adder Vyper contract is not among the provided sources (only its
tests and deployment scripts are). Following spec section 4.1 and section 7:
preconditions y1 ≠ 0, y2 ≠ 0, den ≠ 0, whose violation aborts the call
(modelled as `none`); otherwise the contract computes
s = x1·y1⁻¹ + x2·y2⁻¹ mod P, the inverses taken via the little theorem of
Fermat with exponent P − 2, and returns whether s·den ≡ num (mod P). -/
def rationalAdd (x1 y1 x2 y2 num den : Nat) : Option Bool :=
  if y1 = 0 ∨ y2 = 0 ∨ den = 0 then
    none
  else
    some (decide ((x1 * inv_mod_p y1 + x2 * inv_mod_p y2) % P * den % P = num % P))

end RationalAdder

namespace ECMatMul

/-- Maximum supported matrix dimension (src/tests/test_matmul.py, MAX_DIM). -/
def MAX_DIM : Nat := 6

/-- BN-254 curve order, bound to `R` in src/tests/test_matmul.py
(py_ecc bn128 `curve_order`). -/
def R : Nat := 21888242871839275222246405745257275088548364400416034343698204186575808495617

/-- Matrix-vector product over the scalar field, embedded from `mat_vec` in
src/tests/test_matmul.py: row i accumulates `(acc + mat[i*n+j] * scalars[j]) % R`
over j < n. List indexing uses `getD` with default 0; the tests only call it
with lists long enough for every index to be in range. -/
def mat_vec (mat : List Nat) (scalars : List Nat) (n : Nat) : List Nat :=
  (List.range n).map fun i =>
    (List.range n).foldl (fun acc j => (acc + mat.getD (i * n + j) 0 * scalars.getD j 0) % R) 0

/-- Pad a list of affine points up to MAX_DIM with (0, 0)
(src/tests/test_matmul.py, pad_points). -/
def pad_points (vec : List (Nat × Nat)) : List (Nat × Nat) :=
  vec ++ List.replicate (MAX_DIM - vec.length) (0, 0)

/-- Pad a list of scalars up to MAX_DIM with 0 (src/tests/test_matmul.py,
pad_scalars). -/
def pad_scalars (vec : List Nat) : List Nat :=
  vec ++ List.replicate (MAX_DIM - vec.length) 0

/-- Pad a flat matrix up to MAX_DIM² with 0 (src/tests/test_matmul.py,
pad_matrix). -/
def pad_matrix (flat : List Nat) : List Nat :=
  flat ++ List.replicate (MAX_DIM * MAX_DIM - flat.length) 0

/-- Pad a list up to MAX_DIM with 0 (src/tests/test_matmul.py, pad_vector). -/
def pad_vector (vec : List Nat) : List Nat :=
  vec ++ List.replicate (MAX_DIM - vec.length) 0

/-- Modelled from the spec: a commitment point S = s·G1 on BN-254 G1,
represented by its discrete logarithm s mod R. G1 generates the full group
of prime order R, so scalars mod R are in exact bijection with the points
the contract receives: `commit s` stands for the point `g_mul s`, and the
padding point (0, 0) — the encoding of the identity — is `commit 0 = 0`. -/
def commit (s : Nat) : Nat := s % R

/-- Modelled from the spec: the contract entry point `matmul` of the
EC matrix-multiplication Vyper contract is not among the provided sources
(only its tests and deployment scripts are). Following spec sections 4.2,
6 and 7: precondition 1 ≤ n ≤ MAX_DIM, whose violation aborts the call
(modelled as `none`); otherwise the contract checks, for every row i < n,
the G1 linear combination Σⱼ matrix[i,j]·S_j against the encoding of the
claimed output o_i, i.e. o_i·G1. Points are represented by their discrete
logarithms (see `commit`); since G1 has prime order R, equality of the two
curve points is exactly congruence mod R of the corresponding scalars, so
the row check reads Σⱼ matrix[i,j]·s_j ≡ o_i (mod R). Padding entries
(indices ≥ n) are not inspected. -/
def matmul (flatMatrix : List Nat) (n : Nat) (points : List Nat)
    (outputs : List Nat) : Option Bool :=
  if 1 ≤ n ∧ n ≤ MAX_DIM then
    some (decide (∀ i < n,
      ((List.range n).map fun j =>
        flatMatrix.getD (i * n + j) 0 * points.getD j 0).sum % R
        = outputs.getD i 0 % R))
  else
    none

end ECMatMul

namespace Curve

/-- BN-254 base-field prime (py_ecc bn128 `field_modulus`), bound to `P` in
src/tests/test_matmul.py. -/
def field_modulus : Nat := 21888242871839275222246405745257275088696311157297823662689037894645226208583

/-- BN-254 curve order (py_ecc bn128 `curve_order`). -/
def curve_order : Nat := 21888242871839275222246405745257275088548364400416034343698204186575808495617

/-- Base-field elements, reduced modulo the base-field prime, modelling the
py_ecc FQ type. -/
abbrev FQ : Type := ZMod field_modulus

/-- Affine point with coordinates in the base field; at the `Option` level,
`none` models the py_ecc point at infinity `None`. -/
abbrev Pt : Type := FQ × FQ

/-- The G1 generator of py_ecc bn128: (FQ 1, FQ 2). -/
def G1 : Pt := (1, 2)

/-- Modelled from py_ecc bn128_curve.double (an external library dependency
of the tests, not part of the repository): tangent-line point doubling.
Field division is multiplication by the `ZMod` inverse, which agrees with
the extended-Euclid inverse of py_ecc on every input, 0 included. -/
def double (pt : Pt) : Pt :=
  let l := 3 * pt.1 ^ 2 * (2 * pt.2)⁻¹
  let newx := l ^ 2 - 2 * pt.1
  let newy := -l * newx + l * pt.1 - pt.2
  (newx, newy)

/-- Modelled from py_ecc bn128_curve.add: chord point addition with the
py_ecc None checks first. -/
def add : Option Pt → Option Pt → Option Pt
  | none, p2 => p2
  | p1, none => p1
  | some p1, some p2 =>
    if p2.1 = p1.1 ∧ p2.2 = p1.2 then
      some (double p1)
    else if p2.1 = p1.1 then
      none
    else
      let l := (p2.2 - p1.2) * (p2.1 - p1.1)⁻¹
      let newx := l ^ 2 - p1.1 - p2.1
      let newy := -l * newx + l * p1.1 - p1.2
      some (newx, newy)

/-- Modelled from py_ecc bn128_curve.multiply: binary double-and-add,
`n = 0` giving the point at infinity. -/
def multiply (pt : Pt) (n : Nat) : Option Pt :=
  if n = 0 then none
  else if n = 1 then some pt
  else if n % 2 = 0 then multiply (double pt) (n / 2)
  else add (multiply (double pt) (n / 2)) (some pt)
termination_by n

/-- Convert a py_ecc point to an integer pair reduced modulo the base field,
embedded from `to_affine` in src/tests/test_matmul.py; the infinity point
`None` maps to (0, 0). -/
def to_affine : Option Pt → Nat × Nat
  | none => (0, 0)
  | some pt => (pt.1.val % field_modulus, pt.2.val % field_modulus)

/-- Scalar multiple of the generator in affine integers, embedded from
`g_mul` in src/tests/test_matmul.py: k is first reduced mod R, and k ≡ 0
yields (0, 0), the same convention as the precompile. -/
def g_mul (k : Nat) : Nat × Nat :=
  if k % curve_order = 0 then (0, 0)
  else to_affine (multiply G1 (k % curve_order))

end Curve

theorem powModAux_lt (m : Nat) (hm : 0 < m) :
    ∀ fuel b e, powModAux m fuel b e < m := by
  intro fuel
  induction fuel with
  | zero => intro b e; simpa [powModAux] using Nat.mod_lt _ hm
  | succ fuel ih =>
    intro b e
    by_cases he : e = 0
    · simpa [powModAux, he] using Nat.mod_lt _ hm
    · by_cases hodd : e % 2 = 1
      · simpa [powModAux, he, hodd] using Nat.mod_lt _ hm
      · simpa [powModAux, he, hodd] using ih (b * b % m) (e / 2)

theorem powModAux_correct (m : Nat) :
    ∀ fuel b e, e < 2 ^ fuel → powModAux m fuel b e = b ^ e % m := by
  intro fuel
  induction fuel with
  | zero =>
    intro b e he
    interval_cases e
    simp [powModAux]
  | succ fuel ih =>
    intro b e he
    by_cases he0 : e = 0
    · simp [powModAux, he0]
    · have hdiv : e / 2 < 2 ^ fuel := by
        have : (2 : Nat) ^ (fuel + 1) = 2 ^ fuel * 2 := by ring
        omega
      have hrec := ih (b * b % m) (e / 2) hdiv
      have hsq : (b * b % m) ^ (e / 2) % m = b ^ (2 * (e / 2)) % m := by
        rw [← Nat.pow_mod, pow_mul, pow_two]
      by_cases hodd : e % 2 = 1
      · have hstep : e = 2 * (e / 2) + 1 := by omega
        calc powModAux m (fuel + 1) b e
            = powModAux m fuel (b * b % m) (e / 2) * b % m := by
              simp [powModAux, he0, hodd]
          _ = b ^ (2 * (e / 2)) % m * b % m := by rw [hrec, hsq]
          _ = b ^ (2 * (e / 2)) * b % m := by rw [Nat.mod_mul_mod]
          _ = b ^ e % m := by conv_rhs => rw [hstep, pow_succ]
      · have hstep : e = 2 * (e / 2) := by omega
        calc powModAux m (fuel + 1) b e
            = powModAux m fuel (b * b % m) (e / 2) := by
              simp [powModAux, he0, hodd]
          _ = b ^ (2 * (e / 2)) % m := by rw [hrec, hsq]
          _ = b ^ e % m := by rw [← hstep]

/-- Bridge: evaluate a power in `ZMod p` through `powModAux`. -/
theorem zmod_pow_eq_cast_powModAux (p a e fuel : Nat) (he : e < 2 ^ fuel) :
    (a : ZMod p) ^ e = ((powModAux p fuel (a % p) e : Nat) : ZMod p) := by
  rw [powModAux_correct p fuel (a % p) e he, ← Nat.pow_mod, ZMod.natCast_mod,
    Nat.cast_pow]

theorem zmod_pow_eq_one_of_powModAux (p a e fuel : Nat) (he : e < 2 ^ fuel)
    (hv : powModAux p fuel (a % p) e = 1) : (a : ZMod p) ^ e = 1 := by
  rw [zmod_pow_eq_cast_powModAux p a e fuel he, hv, Nat.cast_one]

theorem zmod_pow_ne_one_of_powModAux (p a e fuel : Nat) (hp : 1 < p)
    (he : e < 2 ^ fuel) (hv : powModAux p fuel (a % p) e ≠ 1) :
    (a : ZMod p) ^ e ≠ 1 := by
  intro hcontra
  apply hv
  have hlt : powModAux p fuel (a % p) e < p := powModAux_lt p (by omega) _ _ _
  have : ((powModAux p fuel (a % p) e : Nat) : ZMod p) = ((1 : Nat) : ZMod p) := by
    rw [← zmod_pow_eq_cast_powModAux p a e fuel he, hcontra, Nat.cast_one]
  have hval := congrArg ZMod.val this
  rwa [ZMod.val_cast_of_lt hlt, ZMod.val_cast_of_lt (by omega)] at hval

/-- Pratt certificate: 405928799 is prime, with primitive root 22. -/
theorem prime_405928799 : Nat.Prime 405928799 := by
  have hp2 : Nat.Prime 2 := by norm_num
  have hp11 : Nat.Prime 11 := by norm_num
  have hp3691 : Nat.Prime 3691 := by norm_num
  have hp4999 : Nat.Prime 4999 := by norm_num
  apply lucas_primality 405928799 ((22 : Nat) : ZMod 405928799)
  · exact zmod_pow_eq_one_of_powModAux _ _ _ 40 (by decide) (by decide)
  · intro q hq hdvd
    have hfac : 405928799 - 1 = 2 * (11 * (3691 * (4999))) := by decide
    rw [hfac] at hdvd
    rcases (Nat.Prime.dvd_mul hq).mp hdvd with h | hdvd
    · have hqe : q = 2 := (Nat.prime_dvd_prime_iff_eq hq hp2).mp h
      subst hqe
      exact zmod_pow_ne_one_of_powModAux _ _ _ 40 (by decide) (by decide) (by decide)
    rcases (Nat.Prime.dvd_mul hq).mp hdvd with h | hdvd
    · have hqe : q = 11 := (Nat.prime_dvd_prime_iff_eq hq hp11).mp h
      subst hqe
      exact zmod_pow_ne_one_of_powModAux _ _ _ 40 (by decide) (by decide) (by decide)
    rcases (Nat.Prime.dvd_mul hq).mp hdvd with h | hdvd
    · have hqe : q = 3691 := (Nat.prime_dvd_prime_iff_eq hq hp3691).mp h
      subst hqe
      exact zmod_pow_ne_one_of_powModAux _ _ _ 40 (by decide) (by decide) (by decide)
    have hqe : q = 4999 := (Nat.prime_dvd_prime_iff_eq hq hp4999).mp hdvd
    subst hqe
    exact zmod_pow_ne_one_of_powModAux _ _ _ 40 (by decide) (by decide) (by decide)

/-- Pratt certificate: 12048837557 is prime, with primitive root 2. -/
theorem prime_12048837557 : Nat.Prime 12048837557 := by
  have hp2 : Nat.Prime 2 := by norm_num
  have hp7 : Nat.Prime 7 := by norm_num
  have hp661 : Nat.Prime 661 := by norm_num
  have hp93001 : Nat.Prime 93001 := by norm_num
  apply lucas_primality 12048837557 ((2 : Nat) : ZMod 12048837557)
  · exact zmod_pow_eq_one_of_powModAux _ _ _ 40 (by decide) (by decide)
  · intro q hq hdvd
    have hfac : 12048837557 - 1 = 2 ^ 2 * (7 ^ 2 * (661 * (93001))) := by decide
    rw [hfac] at hdvd
    rcases (Nat.Prime.dvd_mul hq).mp hdvd with h | hdvd
    · have hqe : q = 2 := (Nat.prime_dvd_prime_iff_eq hq hp2).mp (hq.dvd_of_dvd_pow h)
      subst hqe
      exact zmod_pow_ne_one_of_powModAux _ _ _ 40 (by decide) (by decide) (by decide)
    rcases (Nat.Prime.dvd_mul hq).mp hdvd with h | hdvd
    · have hqe : q = 7 := (Nat.prime_dvd_prime_iff_eq hq hp7).mp (hq.dvd_of_dvd_pow h)
      subst hqe
      exact zmod_pow_ne_one_of_powModAux _ _ _ 40 (by decide) (by decide) (by decide)
    rcases (Nat.Prime.dvd_mul hq).mp hdvd with h | hdvd
    · have hqe : q = 661 := (Nat.prime_dvd_prime_iff_eq hq hp661).mp h
      subst hqe
      exact zmod_pow_ne_one_of_powModAux _ _ _ 40 (by decide) (by decide) (by decide)
    have hqe : q = 93001 := (Nat.prime_dvd_prime_iff_eq hq hp93001).mp hdvd
    subst hqe
    exact zmod_pow_ne_one_of_powModAux _ _ _ 40 (by decide) (by decide) (by decide)

/-- Pratt certificate: 5156902474397 is prime, with primitive root 2. -/
theorem prime_5156902474397 : Nat.Prime 5156902474397 := by
  have hp2 : Nat.Prime 2 := by norm_num
  have hp107 : Nat.Prime 107 := by norm_num
  have hp12048837557 : Nat.Prime 12048837557 := prime_12048837557
  apply lucas_primality 5156902474397 ((2 : Nat) : ZMod 5156902474397)
  · exact zmod_pow_eq_one_of_powModAux _ _ _ 48 (by decide) (by decide)
  · intro q hq hdvd
    have hfac : 5156902474397 - 1 = 2 ^ 2 * (107 * (12048837557)) := by decide
    rw [hfac] at hdvd
    rcases (Nat.Prime.dvd_mul hq).mp hdvd with h | hdvd
    · have hqe : q = 2 := (Nat.prime_dvd_prime_iff_eq hq hp2).mp (hq.dvd_of_dvd_pow h)
      subst hqe
      exact zmod_pow_ne_one_of_powModAux _ _ _ 48 (by decide) (by decide) (by decide)
    rcases (Nat.Prime.dvd_mul hq).mp hdvd with h | hdvd
    · have hqe : q = 107 := (Nat.prime_dvd_prime_iff_eq hq hp107).mp h
      subst hqe
      exact zmod_pow_ne_one_of_powModAux _ _ _ 48 (by decide) (by decide) (by decide)
    have hqe : q = 12048837557 := (Nat.prime_dvd_prime_iff_eq hq hp12048837557).mp hdvd
    subst hqe
    exact zmod_pow_ne_one_of_powModAux _ _ _ 48 (by decide) (by decide) (by decide)

/-- Pratt certificate: 1670836401704629 is prime, with primitive root 2. -/
theorem prime_1670836401704629 : Nat.Prime 1670836401704629 := by
  have hp2 : Nat.Prime 2 := by norm_num
  have hp3 : Nat.Prime 3 := by norm_num
  have hp5156902474397 : Nat.Prime 5156902474397 := prime_5156902474397
  apply lucas_primality 1670836401704629 ((2 : Nat) : ZMod 1670836401704629)
  · exact zmod_pow_eq_one_of_powModAux _ _ _ 56 (by decide) (by decide)
  · intro q hq hdvd
    have hfac : 1670836401704629 - 1 = 2 ^ 2 * (3 ^ 4 * (5156902474397)) := by decide
    rw [hfac] at hdvd
    rcases (Nat.Prime.dvd_mul hq).mp hdvd with h | hdvd
    · have hqe : q = 2 := (Nat.prime_dvd_prime_iff_eq hq hp2).mp (hq.dvd_of_dvd_pow h)
      subst hqe
      exact zmod_pow_ne_one_of_powModAux _ _ _ 56 (by decide) (by decide) (by decide)
    rcases (Nat.Prime.dvd_mul hq).mp hdvd with h | hdvd
    · have hqe : q = 3 := (Nat.prime_dvd_prime_iff_eq hq hp3).mp (hq.dvd_of_dvd_pow h)
      subst hqe
      exact zmod_pow_ne_one_of_powModAux _ _ _ 56 (by decide) (by decide) (by decide)
    have hqe : q = 5156902474397 := (Nat.prime_dvd_prime_iff_eq hq hp5156902474397).mp hdvd
    subst hqe
    exact zmod_pow_ne_one_of_powModAux _ _ _ 56 (by decide) (by decide) (by decide)

/-- Pratt certificate: 1593227 is prime, with primitive root 2. -/
theorem prime_1593227 : Nat.Prime 1593227 := by
  have hp2 : Nat.Prime 2 := by norm_num
  have hp19 : Nat.Prime 19 := by norm_num
  have hp41927 : Nat.Prime 41927 := by norm_num
  apply lucas_primality 1593227 ((2 : Nat) : ZMod 1593227)
  · exact zmod_pow_eq_one_of_powModAux _ _ _ 24 (by decide) (by decide)
  · intro q hq hdvd
    have hfac : 1593227 - 1 = 2 * (19 * (41927)) := by decide
    rw [hfac] at hdvd
    rcases (Nat.Prime.dvd_mul hq).mp hdvd with h | hdvd
    · have hqe : q = 2 := (Nat.prime_dvd_prime_iff_eq hq hp2).mp h
      subst hqe
      exact zmod_pow_ne_one_of_powModAux _ _ _ 24 (by decide) (by decide) (by decide)
    rcases (Nat.Prime.dvd_mul hq).mp hdvd with h | hdvd
    · have hqe : q = 19 := (Nat.prime_dvd_prime_iff_eq hq hp19).mp h
      subst hqe
      exact zmod_pow_ne_one_of_powModAux _ _ _ 24 (by decide) (by decide) (by decide)
    have hqe : q = 41927 := (Nat.prime_dvd_prime_iff_eq hq hp41927).mp hdvd
    subst hqe
    exact zmod_pow_ne_one_of_powModAux _ _ _ 24 (by decide) (by decide) (by decide)

/-- Pratt certificate: 639533339 is prime, with primitive root 2. -/
theorem prime_639533339 : Nat.Prime 639533339 := by
  have hp2 : Nat.Prime 2 := by norm_num
  have hp229 : Nat.Prime 229 := by norm_num
  have hp853 : Nat.Prime 853 := by norm_num
  have hp1637 : Nat.Prime 1637 := by norm_num
  apply lucas_primality 639533339 ((2 : Nat) : ZMod 639533339)
  · exact zmod_pow_eq_one_of_powModAux _ _ _ 32 (by decide) (by decide)
  · intro q hq hdvd
    have hfac : 639533339 - 1 = 2 * (229 * (853 * (1637))) := by decide
    rw [hfac] at hdvd
    rcases (Nat.Prime.dvd_mul hq).mp hdvd with h | hdvd
    · have hqe : q = 2 := (Nat.prime_dvd_prime_iff_eq hq hp2).mp h
      subst hqe
      exact zmod_pow_ne_one_of_powModAux _ _ _ 32 (by decide) (by decide) (by decide)
    rcases (Nat.Prime.dvd_mul hq).mp hdvd with h | hdvd
    · have hqe : q = 229 := (Nat.prime_dvd_prime_iff_eq hq hp229).mp h
      subst hqe
      exact zmod_pow_ne_one_of_powModAux _ _ _ 32 (by decide) (by decide) (by decide)
    rcases (Nat.Prime.dvd_mul hq).mp hdvd with h | hdvd
    · have hqe : q = 853 := (Nat.prime_dvd_prime_iff_eq hq hp853).mp h
      subst hqe
      exact zmod_pow_ne_one_of_powModAux _ _ _ 32 (by decide) (by decide) (by decide)
    have hqe : q = 1637 := (Nat.prime_dvd_prime_iff_eq hq hp1637).mp hdvd
    subst hqe
    exact zmod_pow_ne_one_of_powModAux _ _ _ 32 (by decide) (by decide) (by decide)

/-- Pratt certificate: 65865678001877903 is prime, with primitive root 5. -/
theorem prime_65865678001877903 : Nat.Prime 65865678001877903 := by
  have hp2 : Nat.Prime 2 := by norm_num
  have hp83 : Nat.Prime 83 := by norm_num
  have hp379 : Nat.Prime 379 := by norm_num
  have hp1637 : Nat.Prime 1637 := by norm_num
  have hp639533339 : Nat.Prime 639533339 := prime_639533339
  apply lucas_primality 65865678001877903 ((5 : Nat) : ZMod 65865678001877903)
  · exact zmod_pow_eq_one_of_powModAux _ _ _ 60 (by decide) (by decide)
  · intro q hq hdvd
    have hfac : 65865678001877903 - 1 = 2 * (83 * (379 * (1637 * (639533339)))) := by decide
    rw [hfac] at hdvd
    rcases (Nat.Prime.dvd_mul hq).mp hdvd with h | hdvd
    · have hqe : q = 2 := (Nat.prime_dvd_prime_iff_eq hq hp2).mp h
      subst hqe
      exact zmod_pow_ne_one_of_powModAux _ _ _ 60 (by decide) (by decide) (by decide)
    rcases (Nat.Prime.dvd_mul hq).mp hdvd with h | hdvd
    · have hqe : q = 83 := (Nat.prime_dvd_prime_iff_eq hq hp83).mp h
      subst hqe
      exact zmod_pow_ne_one_of_powModAux _ _ _ 60 (by decide) (by decide) (by decide)
    rcases (Nat.Prime.dvd_mul hq).mp hdvd with h | hdvd
    · have hqe : q = 379 := (Nat.prime_dvd_prime_iff_eq hq hp379).mp h
      subst hqe
      exact zmod_pow_ne_one_of_powModAux _ _ _ 60 (by decide) (by decide) (by decide)
    rcases (Nat.Prime.dvd_mul hq).mp hdvd with h | hdvd
    · have hqe : q = 1637 := (Nat.prime_dvd_prime_iff_eq hq hp1637).mp h
      subst hqe
      exact zmod_pow_ne_one_of_powModAux _ _ _ 60 (by decide) (by decide) (by decide)
    have hqe : q = 639533339 := (Nat.prime_dvd_prime_iff_eq hq hp639533339).mp hdvd
    subst hqe
    exact zmod_pow_ne_one_of_powModAux _ _ _ 60 (by decide) (by decide) (by decide)

/-- Pratt certificate: 13818364434197438864469338081 is prime, with primitive root 3. -/
theorem prime_13818364434197438864469338081 : Nat.Prime 13818364434197438864469338081 := by
  have hp2 : Nat.Prime 2 := by norm_num
  have hp5 : Nat.Prime 5 := by norm_num
  have hp823 : Nat.Prime 823 := by norm_num
  have hp1593227 : Nat.Prime 1593227 := prime_1593227
  have hp65865678001877903 : Nat.Prime 65865678001877903 := prime_65865678001877903
  apply lucas_primality 13818364434197438864469338081 ((3 : Nat) : ZMod 13818364434197438864469338081)
  · exact zmod_pow_eq_one_of_powModAux _ _ _ 100 (by decide) (by decide)
  · intro q hq hdvd
    have hfac : 13818364434197438864469338081 - 1 = 2 ^ 5 * (5 * (823 * (1593227 * (65865678001877903)))) := by decide
    rw [hfac] at hdvd
    rcases (Nat.Prime.dvd_mul hq).mp hdvd with h | hdvd
    · have hqe : q = 2 := (Nat.prime_dvd_prime_iff_eq hq hp2).mp (hq.dvd_of_dvd_pow h)
      subst hqe
      exact zmod_pow_ne_one_of_powModAux _ _ _ 100 (by decide) (by decide) (by decide)
    rcases (Nat.Prime.dvd_mul hq).mp hdvd with h | hdvd
    · have hqe : q = 5 := (Nat.prime_dvd_prime_iff_eq hq hp5).mp h
      subst hqe
      exact zmod_pow_ne_one_of_powModAux _ _ _ 100 (by decide) (by decide) (by decide)
    rcases (Nat.Prime.dvd_mul hq).mp hdvd with h | hdvd
    · have hqe : q = 823 := (Nat.prime_dvd_prime_iff_eq hq hp823).mp h
      subst hqe
      exact zmod_pow_ne_one_of_powModAux _ _ _ 100 (by decide) (by decide) (by decide)
    rcases (Nat.Prime.dvd_mul hq).mp hdvd with h | hdvd
    · have hqe : q = 1593227 := (Nat.prime_dvd_prime_iff_eq hq hp1593227).mp h
      subst hqe
      exact zmod_pow_ne_one_of_powModAux _ _ _ 100 (by decide) (by decide) (by decide)
    have hqe : q = 65865678001877903 := (Nat.prime_dvd_prime_iff_eq hq hp65865678001877903).mp hdvd
    subst hqe
    exact zmod_pow_ne_one_of_powModAux _ _ _ 100 (by decide) (by decide) (by decide)

/-- Pratt certificate: 21888242871839275222246405745257275088548364400416034343698204186575808495617 is prime, with primitive root 5. -/
theorem prime_bn254_r : Nat.Prime 21888242871839275222246405745257275088548364400416034343698204186575808495617 := by
  have hp2 : Nat.Prime 2 := by norm_num
  have hp3 : Nat.Prime 3 := by norm_num
  have hp13 : Nat.Prime 13 := by norm_num
  have hp29 : Nat.Prime 29 := by norm_num
  have hp983 : Nat.Prime 983 := by norm_num
  have hp11003 : Nat.Prime 11003 := by norm_num
  have hp237073 : Nat.Prime 237073 := by norm_num
  have hp405928799 : Nat.Prime 405928799 := prime_405928799
  have hp1670836401704629 : Nat.Prime 1670836401704629 := prime_1670836401704629
  have hp13818364434197438864469338081 : Nat.Prime 13818364434197438864469338081 := prime_13818364434197438864469338081
  apply lucas_primality 21888242871839275222246405745257275088548364400416034343698204186575808495617 ((5 : Nat) : ZMod 21888242871839275222246405745257275088548364400416034343698204186575808495617)
  · exact zmod_pow_eq_one_of_powModAux _ _ _ 256 (by decide) (by decide)
  · intro q hq hdvd
    have hfac : 21888242871839275222246405745257275088548364400416034343698204186575808495617 - 1 = 2 ^ 28 * (3 ^ 2 * (13 * (29 * (983 * (11003 * (237073 * (405928799 * (1670836401704629 * (13818364434197438864469338081))))))))) := by decide
    rw [hfac] at hdvd
    rcases (Nat.Prime.dvd_mul hq).mp hdvd with h | hdvd
    · have hqe : q = 2 := (Nat.prime_dvd_prime_iff_eq hq hp2).mp (hq.dvd_of_dvd_pow h)
      subst hqe
      exact zmod_pow_ne_one_of_powModAux _ _ _ 256 (by decide) (by decide) (by decide)
    rcases (Nat.Prime.dvd_mul hq).mp hdvd with h | hdvd
    · have hqe : q = 3 := (Nat.prime_dvd_prime_iff_eq hq hp3).mp (hq.dvd_of_dvd_pow h)
      subst hqe
      exact zmod_pow_ne_one_of_powModAux _ _ _ 256 (by decide) (by decide) (by decide)
    rcases (Nat.Prime.dvd_mul hq).mp hdvd with h | hdvd
    · have hqe : q = 13 := (Nat.prime_dvd_prime_iff_eq hq hp13).mp h
      subst hqe
      exact zmod_pow_ne_one_of_powModAux _ _ _ 256 (by decide) (by decide) (by decide)
    rcases (Nat.Prime.dvd_mul hq).mp hdvd with h | hdvd
    · have hqe : q = 29 := (Nat.prime_dvd_prime_iff_eq hq hp29).mp h
      subst hqe
      exact zmod_pow_ne_one_of_powModAux _ _ _ 256 (by decide) (by decide) (by decide)
    rcases (Nat.Prime.dvd_mul hq).mp hdvd with h | hdvd
    · have hqe : q = 983 := (Nat.prime_dvd_prime_iff_eq hq hp983).mp h
      subst hqe
      exact zmod_pow_ne_one_of_powModAux _ _ _ 256 (by decide) (by decide) (by decide)
    rcases (Nat.Prime.dvd_mul hq).mp hdvd with h | hdvd
    · have hqe : q = 11003 := (Nat.prime_dvd_prime_iff_eq hq hp11003).mp h
      subst hqe
      exact zmod_pow_ne_one_of_powModAux _ _ _ 256 (by decide) (by decide) (by decide)
    rcases (Nat.Prime.dvd_mul hq).mp hdvd with h | hdvd
    · have hqe : q = 237073 := (Nat.prime_dvd_prime_iff_eq hq hp237073).mp h
      subst hqe
      exact zmod_pow_ne_one_of_powModAux _ _ _ 256 (by decide) (by decide) (by decide)
    rcases (Nat.Prime.dvd_mul hq).mp hdvd with h | hdvd
    · have hqe : q = 405928799 := (Nat.prime_dvd_prime_iff_eq hq hp405928799).mp h
      subst hqe
      exact zmod_pow_ne_one_of_powModAux _ _ _ 256 (by decide) (by decide) (by decide)
    rcases (Nat.Prime.dvd_mul hq).mp hdvd with h | hdvd
    · have hqe : q = 1670836401704629 := (Nat.prime_dvd_prime_iff_eq hq hp1670836401704629).mp h
      subst hqe
      exact zmod_pow_ne_one_of_powModAux _ _ _ 256 (by decide) (by decide) (by decide)
    have hqe : q = 13818364434197438864469338081 := (Nat.prime_dvd_prime_iff_eq hq hp13818364434197438864469338081).mp hdvd
    subst hqe
    exact zmod_pow_ne_one_of_powModAux _ _ _ 256 (by decide) (by decide) (by decide)

/-- A +1 perturbation inside [0, m) never survives reduction mod m when m > 1. -/
theorem succ_mod_ne (m x : Nat) (hm : 1 < m) (hx : x < m) : (x + 1) % m ≠ x := by
  by_cases h : x + 1 < m
  · rw [Nat.mod_eq_of_lt h]; omega
  · have hxm : x + 1 = m := by omega
    rw [hxm, Nat.mod_self]; omega

/-- Folding `(acc + f j) % m` from an initial value already reduced mod m
computes the sum reduced mod m. -/
theorem foldl_addmod_eq_sum_mod (m : Nat) (f : Nat → Nat) :
    ∀ (l : List Nat) (a : Nat),
      l.foldl (fun acc j => (acc + f j) % m) (a % m) = (a + (l.map f).sum) % m := by
  intro l
  induction l with
  | nil => intro a; simp
  | cons x xs ih =>
    intro a
    rw [List.foldl_cons, Nat.mod_add_mod, ih (a + f x), List.map_cons, List.sum_cons]
    congr 1
    omega

/-- Sums of pointwise mod-congruent maps are mod-congruent. -/
theorem list_sum_mod_congr (m : Nat) (f g : Nat → Nat) :
    ∀ l : List Nat, (∀ x ∈ l, f x % m = g x % m) →
      (l.map f).sum % m = (l.map g).sum % m := by
  intro l
  induction l with
  | nil => intro _; rfl
  | cons x xs ih =>
    intro h
    rw [List.map_cons, List.sum_cons, List.map_cons, List.sum_cons,
      Nat.add_mod, h x (by simp), ih fun y hy => h y (by simp [hy]), ← Nat.add_mod]

/-- Reading an entry of a mapped range list below the bound. -/
theorem getD_map_range {α : Type} (F : Nat → α) (d : α) (n i : Nat) (hi : i < n) :
    ((List.range n).map F).getD i d = F i := by
  rw [List.getD_eq_getElem _ _ (by simpa using hi), List.getElem_map, List.getElem_range]

namespace RationalAdder

/-- The BN-254 scalar-field prime is prime (Pratt certificate above). -/
theorem prime_P : Nat.Prime P := prime_bn254_r

/-- Claim C3: for every x1, x2 in [0, P) and every y1, y2, den in [1, P),
rationalAdd returns true when num is the correctly computed numerator
((x1·y1⁻¹ + x2·y2⁻¹ mod P) · den mod P), the inverses via the little
theorem of Fermat. -/
theorem rational_add_holds (x1 y1 x2 y2 den : Nat)
    (hx1 : x1 < P) (hx2 : x2 < P)
    (hy1 : 1 ≤ y1) (hy1P : y1 < P) (hy2 : 1 ≤ y2) (hy2P : y2 < P)
    (hden : 1 ≤ den) (hdenP : den < P) :
    rationalAdd x1 y1 x2 y2
      ((x1 * inv_mod_p y1 + x2 * inv_mod_p y2) % P * den % P) den = some true := by
  unfold rationalAdd
  rw [if_neg (by omega)]
  simp only [Option.some.injEq, decide_eq_true_eq]
  exact (Nat.mod_mod_of_dvd _ dvd_rfl).symm

/-- Witness for C3 at the spec example x1=3, y1=4, x2=5, y2=7, den=11. -/
theorem rational_add_holds_witness :
    ((3 : Nat) < P ∧ (5 : Nat) < P ∧ (1 : Nat) ≤ 4 ∧ (4 : Nat) < P ∧ (1 : Nat) ≤ 7
      ∧ (7 : Nat) < P ∧ (1 : Nat) ≤ 11 ∧ (11 : Nat) < P)
    ∧ rationalAdd 3 4 5 7
        ((3 * inv_mod_p 4 + 5 * inv_mod_p 7) % P * 11 % P) 11 = some true :=
  ⟨⟨by decide, by decide, by decide, by decide, by decide, by decide, by decide, by decide⟩,
    rational_add_holds 3 4 5 7 11 (by decide) (by decide) (by decide) (by decide)
      (by decide) (by decide) (by decide) (by decide)⟩

/-- Claim C4: on a valid instance, replacing the correct numerator num by
(num + 1) mod P (whenever that differs from num) makes rationalAdd return
false. -/
theorem rational_add_fails_on_wrong_num (x1 y1 x2 y2 den num num_bad : Nat)
    (hx1 : x1 < P) (hx2 : x2 < P)
    (hy1 : 1 ≤ y1) (hy1P : y1 < P) (hy2 : 1 ≤ y2) (hy2P : y2 < P)
    (hden : 1 ≤ den) (hdenP : den < P)
    (hnum : num = (x1 * inv_mod_p y1 + x2 * inv_mod_p y2) % P * den % P)
    (hbad : num_bad = (num + 1) % P)
    (hne : num_bad ≠ num) :
    rationalAdd x1 y1 x2 y2 num_bad den = some false := by
  unfold rationalAdd
  rw [if_neg (by omega)]
  simp only [Option.some.injEq, decide_eq_false_iff_not]
  rw [← hnum]
  have hlt : num_bad < P := by
    rw [hbad]
    exact Nat.mod_lt _ (by decide)
  rw [Nat.mod_eq_of_lt hlt]
  exact fun h => hne h.symm

/-- Witness for C4 at the spec example, with num the correct numerator
expression and num bumped by one mod P. -/
theorem rational_add_fails_on_wrong_num_witness :
    ((3 : Nat) < P ∧ (5 : Nat) < P ∧ (1 : Nat) ≤ 4 ∧ (4 : Nat) < P ∧ (1 : Nat) ≤ 7
      ∧ (7 : Nat) < P ∧ (1 : Nat) ≤ 11 ∧ (11 : Nat) < P
      ∧ ((3 * inv_mod_p 4 + 5 * inv_mod_p 7) % P * 11 % P + 1) % P
          ≠ (3 * inv_mod_p 4 + 5 * inv_mod_p 7) % P * 11 % P)
    ∧ rationalAdd 3 4 5 7
        (((3 * inv_mod_p 4 + 5 * inv_mod_p 7) % P * 11 % P + 1) % P) 11 = some false :=
  ⟨⟨by decide, by decide, by decide, by decide, by decide, by decide, by decide, by decide,
      succ_mod_ne P _ (by decide) (Nat.mod_lt _ (by decide))⟩,
    rational_add_fails_on_wrong_num 3 4 5 7 11
      ((3 * inv_mod_p 4 + 5 * inv_mod_p 7) % P * 11 % P)
      (((3 * inv_mod_p 4 + 5 * inv_mod_p 7) % P * 11 % P + 1) % P)
      (by decide) (by decide) (by decide) (by decide) (by decide) (by decide)
      (by decide) (by decide) rfl rfl
      (succ_mod_ne P _ (by decide) (Nat.mod_lt _ (by decide)))⟩

/-- Claim C5: rationalAdd aborts (returns no boolean) whenever y1, y2 or den
is zero; in particular the call (1,1), (2,1), num=3, den=0 aborts. -/
theorem reverts_on_zero_denominator (x1 y1 x2 y2 num den : Nat)
    (h : y1 = 0 ∨ y2 = 0 ∨ den = 0) :
    rationalAdd x1 y1 x2 y2 num den = none := by
  unfold rationalAdd
  rw [if_pos h]

/-- Witness for C5: the concrete call of the test, (1,1), (2,1), num=3, den=0. -/
theorem reverts_on_zero_denominator_witness :
    ((1 : Nat) = 0 ∨ (1 : Nat) = 0 ∨ (0 : Nat) = 0)
    ∧ rationalAdd 1 1 2 1 3 0 = none :=
  ⟨Or.inr (Or.inr rfl), reverts_on_zero_denominator 1 1 2 1 3 0 (Or.inr (Or.inr rfl))⟩

/-- Claim C7: the modular inverse is computed by the little theorem of Fermat
with exponent P − 2, and on every u in [1, P − 1] it is a genuine inverse:
u · inv_mod_p u ≡ 1 (mod P), P being the BN-254 scalar-field prime. -/
theorem inv_mod_p_correct (u : Nat) (h1 : 1 ≤ u) (h2 : u ≤ P - 1) :
    inv_mod_p u = u ^ (P - 2) % P ∧ (u * inv_mod_p u) % P = 1 := by
  refine ⟨rfl, ?_⟩
  have hP : Nat.Prime P := prime_P
  haveI : Fact (Nat.Prime P) := ⟨hP⟩
  haveI : NeZero P := ⟨hP.ne_zero⟩
  have hP1 : 1 < P := hP.one_lt
  have hu0 : (u : ZMod P) ≠ 0 := by
    rw [Ne, ZMod.natCast_zmod_eq_zero_iff_dvd]
    intro hdvd
    have hle : P ≤ u := Nat.le_of_dvd (by omega) hdvd
    omega
  have hpow : (u : ZMod P) ^ (P - 1) = 1 := ZMod.pow_card_sub_one_eq_one hu0
  have hcast : ((u * inv_mod_p u : Nat) : ZMod P) = ((1 : Nat) : ZMod P) := by
    unfold inv_mod_p
    rw [Nat.cast_mul, ZMod.natCast_mod, Nat.cast_pow, Nat.cast_one, ← pow_succ']
    have he : P - 2 + 1 = P - 1 := by omega
    rw [he]
    exact hpow
  have hmod := (ZMod.natCast_eq_natCast_iff' _ _ _).mp hcast
  rwa [Nat.mod_eq_of_lt hP1] at hmod

/-- Witness for C7 at u = 2. -/
theorem inv_mod_p_correct_witness :
    ((1 : Nat) ≤ 2 ∧ (2 : Nat) ≤ P - 1)
    ∧ (inv_mod_p 2 = 2 ^ (P - 2) % P ∧ (2 * inv_mod_p 2) % P = 1) :=
  ⟨⟨by decide, by decide⟩, inv_mod_p_correct 2 (by decide) (by decide)⟩

/-- Claim C10: for every num in [0, P), with P > 1, the mutation
(num + 1) mod P is distinct from num, so the wrap-around guard of the
negative rationalAdd test filters nothing. -/
theorem plus_one_mod_ne (num : Nat) (hP : 1 < P) (h : num < P) :
    (num + 1) % P ≠ num :=
  succ_mod_ne P num hP h

/-- Witness for C10 at num = 0. -/
theorem plus_one_mod_ne_witness :
    ((1 : Nat) < P ∧ (0 : Nat) < P) ∧ (0 + 1) % P ≠ 0 :=
  ⟨⟨by decide, by decide⟩, plus_one_mod_ne 0 (by decide) (by decide)⟩

end RationalAdder


namespace ECMatMul

theorem mat_vec_length (mat scalars : List Nat) (n : Nat) :
    (mat_vec mat scalars n).length = n := by
  simp [mat_vec]

/-- Each entry of `mat_vec` is the plain row sum reduced mod R. -/
theorem mat_vec_getD (mat scalars : List Nat) (n i : Nat) (hi : i < n) :
    (mat_vec mat scalars n).getD i 0
      = ((List.range n).map fun j => mat.getD (i * n + j) 0 * scalars.getD j 0).sum % R := by
  unfold mat_vec
  rw [getD_map_range _ 0 n i hi]
  have h := foldl_addmod_eq_sum_mod R
    (fun j => mat.getD (i * n + j) 0 * scalars.getD j 0) (List.range n) 0
  rw [Nat.zero_mod] at h
  rw [h, Nat.zero_add]

/-- The row sum of the matmul check over the padded calldata coincides mod R
with the plain row sum over the unpadded matrix and secrets. -/
theorem row_sum_eq (matrix secrets : List Nat) (n i : Nat)
    (hmlen : matrix.length = n * n) (hslen : secrets.length = n) (hi : i < n) :
    ((List.range n).map fun j =>
      (pad_matrix matrix).getD (i * n + j) 0
        * (pad_scalars (secrets.map commit)).getD j 0).sum % R
      = ((List.range n).map fun j =>
          matrix.getD (i * n + j) 0 * secrets.getD j 0).sum % R := by
  have hmap : ((List.range n).map fun j =>
        (pad_matrix matrix).getD (i * n + j) 0
          * (pad_scalars (secrets.map commit)).getD j 0)
      = (List.range n).map fun j =>
          matrix.getD (i * n + j) 0 * (secrets.getD j 0 % R) := by
    apply List.map_congr_left
    intro j hj
    have hjn : j < n := List.mem_range.mp hj
    have hidx : i * n + j < matrix.length := by
      rw [hmlen]
      calc i * n + j < i * n + n := by omega
        _ = (i + 1) * n := by ring
        _ ≤ n * n := Nat.mul_le_mul_right n hi
    have h1 : (pad_matrix matrix).getD (i * n + j) 0 = matrix.getD (i * n + j) 0 := by
      unfold pad_matrix
      exact List.getD_append _ _ _ _ hidx
    have h2 : (pad_scalars (secrets.map commit)).getD j 0 = secrets.getD j 0 % R := by
      unfold pad_scalars
      rw [List.getD_append _ _ _ _ (by rw [List.length_map, hslen]; exact hjn)]
      rw [List.getD_eq_getElem _ _ (by rw [List.length_map, hslen]; exact hjn),
        List.getElem_map,
        ← List.getD_eq_getElem _ _ (by rw [hslen]; exact hjn)]
      rfl
    rw [h1, h2]
  rw [hmap]
  exact list_sum_mod_congr R _ _ (List.range n) fun j hj => by
    rw [Nat.mul_mod, Nat.mod_mod_of_dvd _ dvd_rfl, ← Nat.mul_mod]

/-- Claim C1: for every dimension n in [1, 6], every flat row-major matrix of
n·n scalars in [0, R) and every vector of n secret scalars in [0, R), matmul
accepts the zero-padded matrix, the commitments to the secrets padded with
the identity encoding, and the claimed outputs mat_vec(matrix, secrets, n)
padded with zeros. -/
theorem matmul_holds (n : Nat) (matrix secrets : List Nat)
    (hn1 : 1 ≤ n) (hn2 : n ≤ MAX_DIM)
    (hmlen : matrix.length = n * n) (hslen : secrets.length = n)
    (hmR : ∀ a ∈ matrix, a < R) (hsR : ∀ a ∈ secrets, a < R) :
    matmul (pad_matrix matrix) n (pad_scalars (secrets.map commit))
      (pad_scalars (mat_vec matrix secrets n)) = some true := by
  unfold matmul
  rw [if_pos ⟨hn1, hn2⟩]
  simp only [Option.some.injEq, decide_eq_true_eq]
  intro i hi
  have houts : (pad_scalars (mat_vec matrix secrets n)).getD i 0
      = (mat_vec matrix secrets n).getD i 0 := by
    unfold pad_scalars
    exact List.getD_append _ _ _ _ (by rw [mat_vec_length]; exact hi)
  rw [row_sum_eq matrix secrets n i hmlen hslen hi, houts,
    mat_vec_getD matrix secrets n i hi, Nat.mod_mod_of_dvd _ dvd_rfl]

/-- Witness for C1: the 1-dimensional instance with matrix [2] and secret [3]. -/
theorem matmul_holds_witness :
    (1 ≤ 1 ∧ 1 ≤ MAX_DIM ∧ ([2] : List Nat).length = 1 * 1
      ∧ ([3] : List Nat).length = 1
      ∧ (∀ a ∈ ([2] : List Nat), a < R) ∧ (∀ a ∈ ([3] : List Nat), a < R))
    ∧ matmul (pad_matrix [2]) 1 (pad_scalars ([3].map commit))
        (pad_scalars (mat_vec [2] [3] 1)) = some true :=
  ⟨⟨by decide, by decide, by decide, by decide, by decide, by decide⟩,
    matmul_holds 1 [2] [3] (by decide) (by decide) (by decide) (by decide)
      (by decide) (by decide)⟩

/-- Claim C2: on every valid instance, replacing the first entry of the
correct output vector by its +1-mod-R mutation before padding makes matmul
return false. -/
theorem matmul_fails_on_wrong_output (n : Nat) (matrix secrets : List Nat)
    (hn1 : 1 ≤ n) (hn2 : n ≤ MAX_DIM)
    (hmlen : matrix.length = n * n) (hslen : secrets.length = n)
    (hmR : ∀ a ∈ matrix, a < R) (hsR : ∀ a ∈ secrets, a < R) :
    matmul (pad_matrix matrix) n (pad_scalars (secrets.map commit))
      (pad_scalars ((mat_vec matrix secrets n).set 0
        (((mat_vec matrix secrets n).getD 0 0 + 1) % R))) = some false := by
  unfold matmul
  rw [if_pos ⟨hn1, hn2⟩]
  simp only [Option.some.injEq, decide_eq_false_iff_not]
  intro hall
  have h0 : ((List.range n).map fun j =>
      (pad_matrix matrix).getD (0 * n + j) 0
        * (pad_scalars (secrets.map commit)).getD j 0).sum % R
      = (pad_scalars ((mat_vec matrix secrets n).set 0
          (((mat_vec matrix secrets n).getD 0 0 + 1) % R))).getD 0 0 % R :=
    hall 0 (by omega)
  have hset : (pad_scalars ((mat_vec matrix secrets n).set 0
      (((mat_vec matrix secrets n).getD 0 0 + 1) % R))).getD 0 0
      = ((mat_vec matrix secrets n).getD 0 0 + 1) % R := by
    unfold pad_scalars
    rw [List.getD_append _ _ _ _ (by rw [List.length_set, mat_vec_length]; omega)]
    rw [List.getD_eq_getElem _ _ (by rw [List.length_set, mat_vec_length]; omega)]
    exact List.getElem_set_self _
  rw [row_sum_eq matrix secrets n 0 hmlen hslen (by omega), hset,
    ← mat_vec_getD matrix secrets n 0 (by omega),
    Nat.mod_mod_of_dvd _ dvd_rfl] at h0
  have hlt : (mat_vec matrix secrets n).getD 0 0 < R := by
    rw [mat_vec_getD matrix secrets n 0 (by omega)]
    exact Nat.mod_lt _ (by decide)
  exact succ_mod_ne R ((mat_vec matrix secrets n).getD 0 0)
    (by decide) hlt h0.symm

/-- Witness for C2: the corrupted 1-dimensional instance. -/
theorem matmul_fails_on_wrong_output_witness :
    (1 ≤ 1 ∧ 1 ≤ MAX_DIM ∧ ([2] : List Nat).length = 1 * 1
      ∧ ([3] : List Nat).length = 1
      ∧ (∀ a ∈ ([2] : List Nat), a < R) ∧ (∀ a ∈ ([3] : List Nat), a < R))
    ∧ matmul (pad_matrix [2]) 1 (pad_scalars ([3].map commit))
        (pad_scalars ((mat_vec [2] [3] 1).set 0
          (((mat_vec [2] [3] 1).getD 0 0 + 1) % R))) = some false :=
  ⟨⟨by decide, by decide, by decide, by decide, by decide, by decide⟩,
    matmul_fails_on_wrong_output 1 [2] [3] (by decide) (by decide) (by decide)
      (by decide) (by decide) (by decide)⟩

/-- Claim C6: matmul aborts (returns no boolean) whenever the dimension n is
outside [1, MAX_DIM], for any matrix, points and outputs arguments; in
particular at n = 0 and n = MAX_DIM + 1 = 7. -/
theorem revert_on_bad_n (flatMatrix points outputs : List Nat) (n : Nat)
    (h : n = 0 ∨ MAX_DIM < n) :
    matmul flatMatrix n points outputs = none := by
  have hneg : ¬(1 ≤ n ∧ n ≤ MAX_DIM) := by
    simp only [MAX_DIM] at h ⊢
    omega
  unfold matmul
  rw [if_neg hneg]

/-- Witness for C6: the revert test call at n = 0 on zero-padded dummies. -/
theorem revert_on_bad_n_witness :
    ((0 : Nat) = 0 ∨ MAX_DIM < 0)
    ∧ matmul (pad_matrix []) 0 (pad_vector []) (pad_vector []) = none :=
  ⟨Or.inl rfl, revert_on_bad_n (pad_matrix []) (pad_vector []) (pad_vector []) 0 (Or.inl rfl)⟩

/-- Claim C9: the padding helpers realise the calldata format: pad_matrix
produces length MAX_DIM² = 36 with the input as prefix and zeros beyond,
pad_points length MAX_DIM = 6 with (0,0) beyond, pad_scalars length 6 with
zeros beyond, whenever the input is no longer than the target. -/
theorem pad_spec (flat : List Nat) (vec : List (Nat × Nat)) (sc : List Nat)
    (hf : flat.length ≤ 36) (hv : vec.length ≤ 6) (hs : sc.length ≤ 6) :
    ((pad_matrix flat).length = 36
      ∧ (pad_matrix flat).take flat.length = flat
      ∧ (pad_matrix flat).drop flat.length = List.replicate (36 - flat.length) 0)
    ∧ ((pad_points vec).length = 6
      ∧ (pad_points vec).take vec.length = vec
      ∧ (pad_points vec).drop vec.length = List.replicate (6 - vec.length) (0, 0))
    ∧ ((pad_scalars sc).length = 6
      ∧ (pad_scalars sc).take sc.length = sc
      ∧ (pad_scalars sc).drop sc.length = List.replicate (6 - sc.length) 0) := by
  unfold pad_matrix pad_points pad_scalars
  rw [show MAX_DIM * MAX_DIM = 36 from rfl, show MAX_DIM = 6 from rfl]
  refine ⟨⟨?_, ?_, ?_⟩, ⟨?_, ?_, ?_⟩, ⟨?_, ?_, ?_⟩⟩
  · rw [List.length_append, List.length_replicate]; omega
  · exact List.take_left _ _
  · exact List.drop_left _ _
  · rw [List.length_append, List.length_replicate]; omega
  · exact List.take_left _ _
  · exact List.drop_left _ _
  · rw [List.length_append, List.length_replicate]; omega
  · exact List.take_left _ _
  · exact List.drop_left _ _

/-- Witness for C9 at the empty inputs. -/
theorem pad_spec_witness :
    (([] : List Nat).length ≤ 36 ∧ ([] : List (Nat × Nat)).length ≤ 6
      ∧ ([] : List Nat).length ≤ 6)
    ∧ (((pad_matrix []).length = 36
        ∧ (pad_matrix []).take 0 = ([] : List Nat)
        ∧ (pad_matrix []).drop 0 = List.replicate 36 0)
      ∧ ((pad_points []).length = 6
        ∧ (pad_points []).take 0 = ([] : List (Nat × Nat))
        ∧ (pad_points []).drop 0 = List.replicate 6 (0, 0))
      ∧ ((pad_scalars []).length = 6
        ∧ (pad_scalars []).take 0 = ([] : List Nat)
        ∧ (pad_scalars []).drop 0 = List.replicate 6 0)) :=
  ⟨⟨by decide, by decide, by decide⟩, pad_spec [] [] [] (by decide) (by decide) (by decide)⟩

end ECMatMul

namespace Curve

/-- Claim C8: (0,0) encodes the point at infinity: to_affine maps the py_ecc
infinity point to (0,0); g_mul k is (0,0) exactly on the scalars k ≡ 0 mod R;
and on k with k mod R ≠ 0, g_mul k is the affine pair of the py_ecc product
multiply G1 (k mod R), its coordinates reduced modulo the base-field prime. -/
theorem g_mul_spec (k : Nat) (hk : k % curve_order ≠ 0) :
    to_affine (none : Option Pt) = (0, 0)
    ∧ (∀ k0 : Nat, k0 % curve_order = 0 → g_mul k0 = (0, 0))
    ∧ g_mul k = to_affine (multiply G1 (k % curve_order))
    ∧ (g_mul k).1 < field_modulus ∧ (g_mul k).2 < field_modulus := by
  have hzero : ∀ k0 : Nat, k0 % curve_order = 0 → g_mul k0 = (0, 0) := by
    intro k0 h0
    unfold g_mul
    rw [if_pos h0]
  have heq : g_mul k = to_affine (multiply G1 (k % curve_order)) := by
    unfold g_mul
    rw [if_neg hk]
  have hbound : (g_mul k).1 < field_modulus ∧ (g_mul k).2 < field_modulus := by
    rw [heq]
    cases multiply G1 (k % curve_order) with
    | none => exact ⟨by decide, by decide⟩
    | some pt =>
      exact ⟨Nat.mod_lt _ (by decide), Nat.mod_lt _ (by decide)⟩
  exact ⟨rfl, hzero, heq, hbound.1, hbound.2⟩

/-- Witness for C8 at k = 1. -/
theorem g_mul_spec_witness :
    (1 % curve_order ≠ 0)
    ∧ (to_affine (none : Option Pt) = (0, 0)
      ∧ (∀ k0 : Nat, k0 % curve_order = 0 → g_mul k0 = (0, 0))
      ∧ g_mul 1 = to_affine (multiply G1 (1 % curve_order))
      ∧ (g_mul 1).1 < field_modulus ∧ (g_mul 1).2 < field_modulus) :=
  ⟨by decide, g_mul_spec 1 (by decide)⟩

end Curve
